import Mathlib

/-!
Shallow embedding of the core of `src/app.py` (a Flask app cataloguing exam
papers) and proofs about it.  Strings are manipulated as `List Char`, which
matches Python's code-point view of `str`; Python's `str.replace`,
`str.strip`, `str.lstrip` are embedded directly.  File-system state is a list
of relative paths; nondeterministic failures of `unlink` are modelled as
explicit boolean inputs.
-/

/-- The ASCII part of Python's whitespace set used by `str.strip()` and
`str.split()`.  (Python also strips some further Unicode whitespace; the
repository only ever feeds form fields through these helpers.) -/
def pyIsSpace (c : Char) : Bool :=
  c = ' ' || c = '\t' || c = '\n' || c = '\r' || c = '\x0b' || c = '\x0c'

/-- Python `str.strip()` with no argument: drop leading and trailing
whitespace. -/
def pyStrip (l : List Char) : List Char :=
  ((l.dropWhile pyIsSpace).reverse.dropWhile pyIsSpace).reverse

/-- `listStartsWith pat l` : `pat` occurs at the head of `l`. -/
def listStartsWith : List Char → List Char → Bool
  | [], _ => true
  | _ :: _, [] => false
  | p :: ps, c :: cs => p = c && listStartsWith ps cs

/-- Fuel-driven worker for `pyReplace` (structural recursion so that the
kernel can evaluate it); the fuel never runs out when it starts at the
length of the list. -/
def pyReplaceGo (fuel : Nat) (pat rep : List Char) (l : List Char) : List Char :=
  match fuel, l with
  | 0, l => l
  | _, [] => []
  | f + 1, c :: cs =>
    if pat ≠ [] ∧ listStartsWith pat (c :: cs) then
      rep ++ pyReplaceGo f pat rep (cs.drop (pat.length - 1))
    else
      c :: pyReplaceGo f pat rep cs

/-- Python `s.replace(pat, rep)` for a non-empty `pat`: one left-to-right
scan, replacing non-overlapping occurrences. -/
def pyReplace (pat rep l : List Char) : List Char :=
  pyReplaceGo l.length pat rep l

theorem pyReplaceGo_fuel {pat rep : List Char} :
    ∀ (f1 : Nat) (l : List Char) (f2 : Nat), l.length ≤ f1 → l.length ≤ f2 →
      pyReplaceGo f1 pat rep l = pyReplaceGo f2 pat rep l
  | 0, l, f2, h1, _ => by
    have : l = [] := List.length_eq_zero.mp (Nat.le_zero.mp h1)
    subst this
    cases f2 <;> rfl
  | f + 1, [], f2, _, _ => by cases f2 <;> rfl
  | f + 1, c :: cs, f2, h1, h2 => by
    rcases f2 with _ | g
    · exact absurd h2 (by simp)
    · show (if pat ≠ [] ∧ listStartsWith pat (c :: cs) then
          rep ++ pyReplaceGo f pat rep (cs.drop (pat.length - 1))
        else c :: pyReplaceGo f pat rep cs) =
        (if pat ≠ [] ∧ listStartsWith pat (c :: cs) then
          rep ++ pyReplaceGo g pat rep (cs.drop (pat.length - 1))
        else c :: pyReplaceGo g pat rep cs)
      simp only [List.length_cons] at h1 h2
      have hd := List.length_drop (pat.length - 1) cs
      by_cases hc : pat ≠ [] ∧ listStartsWith pat (c :: cs)
      · rw [if_pos hc, if_pos hc,
          pyReplaceGo_fuel f (cs.drop (pat.length - 1)) g (by omega) (by omega)]
      · rw [if_neg hc, if_neg hc, pyReplaceGo_fuel f cs g (by omega) (by omega)]

theorem pyReplace_cons (pat rep : List Char) (c : Char) (cs : List Char) :
    pyReplace pat rep (c :: cs) =
      if pat ≠ [] ∧ listStartsWith pat (c :: cs) then
        rep ++ pyReplace pat rep (cs.drop (pat.length - 1))
      else
        c :: pyReplace pat rep cs := by
  show (if pat ≠ [] ∧ listStartsWith pat (c :: cs) then
      rep ++ pyReplaceGo cs.length pat rep (cs.drop (pat.length - 1))
    else c :: pyReplaceGo cs.length pat rep cs) = _
  have hd := List.length_drop (pat.length - 1) cs
  by_cases hc : pat ≠ [] ∧ listStartsWith pat (c :: cs)
  · rw [if_pos hc, if_pos hc, pyReplaceGo_fuel cs.length (cs.drop (pat.length - 1))
      (cs.drop (pat.length - 1)).length (by omega) (by omega)]
    rfl
  · rw [if_neg hc, if_neg hc]
    rfl

/-- Value of an ASCII digit character. -/
def digitVal (c : Char) : Nat := c.toNat - 48

/-- Python `int()` on a non-empty string of ASCII digits. -/
def digitsVal (l : List Char) : Nat := l.foldl (fun a c => a * 10 + digitVal c) 0

/-- The normalization at src/app.py line 60: strip, replace en/em dashes
with hyphens, and remove spaces. -/
def examYearNormalize (value : String) : List Char :=
  pyReplace [' '] [] (pyReplace ['—'] ['-'] (pyReplace ['–'] ['-'] (pyStrip value.data)))

/-- The end-year computation of src/app.py lines 69-71: a four-digit end
part is used verbatim, a two-digit one is substituted into the start
year's century, and an end below the start becomes `start + 1`. -/
def examRangeEnd (start : Nat) (end_part : List Char) : Nat :=
  let e := if end_part.length = 4 then digitsVal end_part
    else start / 100 * 100 + digitsVal end_part
  if e < start then start + 1 else e

/-- Shallow embedding of `parse_exam_year` (src/app.py lines 54-73).
The input is stripped, en/em dashes are replaced by hyphens and spaces are
removed, then it is matched against `\d{4}` or `\d{4}-(\d{2}|\d{4})`
(with `\d` as ASCII digits).  Returns `(starting year, display range)`;
the function is total, unparseable input yields `(none, none)`. -/
def parse_exam_year (value : String) : Option Nat × Option String :=
  let s := examYearNormalize value
  if s.length = 4 ∧ s.all Char.isDigit then
    (some (digitsVal s), none)
  else
    match s with
    | a :: b :: c :: d :: '-' :: rest =>
      if (a.isDigit && b.isDigit && c.isDigit && d.isDigit) ∧
          (rest.length = 2 ∨ rest.length = 4) ∧ rest.all Char.isDigit then
        let start := digitsVal [a, b, c, d]
        (some start, some (Nat.repr start ++ "-" ++ Nat.repr (examRangeEnd start rest)))
      else (none, none)
    | _ => (none, none)

/-- The per-string transform of the startup healer `normalize_data_paths`
(src/app.py line 86): `sp.replace("\\\\", "/").replace("\\", "/")` —
first each pair of backslashes, then each remaining backslash, becomes a
forward slash. -/
def heal_stored_path (sp : String) : String :=
  String.mk (pyReplace ['\\'] ['/'] (pyReplace ['\\', '\\'] ['/'] sp.data))

/-- The client-path normalization in `serve_file` (src/app.py line 330):
`relpath.replace("\\", "/").replace("//", "/").lstrip("/")`. -/
def serve_relpath (relpath : String) : String :=
  String.mk ((pyReplace ['/', '/'] ['/'] (pyReplace ['\\'] ['/'] relpath.data)).dropWhile (fun c => c = '/'))

/-- Python code-point lexicographic `<` on strings (as used by tuple
comparison in `list.sort` keys and by `sorted`). -/
def strLt : List Char → List Char → Bool
  | [], [] => false
  | [], _ :: _ => true
  | _ :: _, [] => false
  | a :: as, b :: bs => a.toNat < b.toNat || (a = b && strLt as bs)

/-- Insert `x` into `l` after every element that is strictly below it under
`le` — the insertion step of a stable sort. -/
def sInsert (le : α → α → Bool) (x : α) : List α → List α
  | [] => [x]
  | y :: ys => if le y x && !(le x y) then y :: sInsert le x ys else x :: y :: ys

/-- A stable sort by the boolean comparison `le`.  For a total transitive
`le` it produces the unique stable sorted permutation, hence exactly the
output of Python's (stable) `list.sort` / `sorted`. -/
def stableSort (le : α → α → Bool) (l : List α) : List α :=
  l.foldr (sInsert le) []

/-- ASCII `str.lower()` (the repository only lower-cases form fields and
file extensions). -/
def pyLower (l : List Char) : List Char :=
  l.map (fun c => if 'A' ≤ c ∧ c ≤ 'Z' then Char.ofNat (c.toNat + 32) else c)

/-- Python `int(s)` on a stripped decimal string with optional sign;
`none` models the `ValueError` branch.  (PEP-515 underscore grouping and
non-ASCII digits are not modelled; the app's forms never produce them.) -/
def pyParseInt (s : String) : Option Int :=
  match pyStrip s.data with
  | [] => none
  | '+' :: rest => if rest ≠ [] ∧ rest.all Char.isDigit then some (digitsVal rest) else none
  | '-' :: rest => if rest ≠ [] ∧ rest.all Char.isDigit then some (-(digitsVal rest : Int)) else none
  | l => if l.all Char.isDigit then some (digitsVal l) else none

/-- A paper record, the dict appended by `upload` (src/app.py lines 270-282). -/
structure Paper where
  id : Nat
  year : Int
  semester : Int
  subject : String
  exam_type : String
  exam_year : Nat
  academic_year : Option String
  original_filename : String
  stored_path : String
  uploaded_at : String
deriving DecidableEq, Repr

/-- `next_id` (src/app.py lines 45-46): `max((p["id"] for p in data), default=0) + 1`. -/
def next_id (data : List Paper) : Nat :=
  (data.map Paper.id).foldl max 0 + 1

/-- The whole startup healer `normalize_data_paths` (src/app.py lines
76-92): rewrite every `stored_path` through `heal_stored_path`, count the
records that changed, and save the collection when any did.  Returns
`(new collection, changed count, list of save_data calls)`. -/
def normalize_data_paths (data : List Paper) : List Paper × Nat × List (List Paper) :=
  let data1 := data.map (fun p => { p with stored_path := heal_stored_path p.stored_path })
  let changed := (data.filter (fun p => heal_stored_path p.stored_path ≠ p.stored_path)).length
  (data1, changed, if changed ≠ 0 then [data1] else [])

/-- The filter applied per record in `papers_list` (src/app.py lines
150-159): equality on year/semester when supplied, case-insensitive
equality on subject when non-empty, equality on exam_type when non-empty. -/
def paperMatches (year semester : Option Int) (subject exam_type : String) (p : Paper) : Bool :=
  (match year with | none => true | some y => p.year == y) &&
  (match semester with | none => true | some m => p.semester == m) &&
  (subject == "" || pyLower p.subject.data == pyLower subject.data) &&
  (exam_type == "" || p.exam_type == exam_type)

/-- The ascending comparison induced by the sort key
`(-x["exam_year"], x["subject"], x["exam_type"])` of src/app.py line 162. -/
def paper_key_le (x y : Paper) : Bool :=
  if x.exam_year ≠ y.exam_year then y.exam_year < x.exam_year
  else if x.subject ≠ y.subject then strLt x.subject.data y.subject.data
  else strLt x.exam_type.data y.exam_type.data || x.exam_type = y.exam_type

/-- The optional query parameters of `papers_list`; `""` stands for an
absent parameter (`request.args.get(...) or ""`). -/
structure ListQuery where
  year : String
  semester : String
  subject : String
  exam_type : String

/-- The lenient `year` conversion of src/app.py lines 139-142: an absent
parameter, or one that fails `int()`, means no filter. -/
def queryYear (q : ListQuery) : Option Int :=
  let year_str := String.mk (pyStrip q.year.data)
  if year_str = "" then none else pyParseInt year_str

/-- The lenient `semester` conversion of src/app.py lines 143-146. -/
def querySemester (q : ListQuery) : Option Int :=
  let semester_str := String.mk (pyStrip q.semester.data)
  if semester_str = "" then none else pyParseInt semester_str

/-- The body of `papers_list` after parameter conversion (src/app.py lines
148-178): filter, sort by `(-exam_year, subject, exam_type)` with a stable
sort, and compute the subject suggestions.  Returns `(papers, subjects_all)`. -/
def papers_core (data : List Paper) (year semester : Option Int)
    (subject exam_type : String) : List Paper × List String :=
  (stableSort paper_key_le (data.filter (paperMatches year semester subject exam_type)),
   stableSort (fun a b => strLt a.data b.data || a == b)
     ((data.filter (fun p =>
       (match year with | none => true | some y => p.year == y) &&
       (match semester with | none => true | some m => p.semester == m))).map
         Paper.subject).dedup)

/-- `papers_list` (src/app.py lines 128-178): strip the raw parameters,
convert the numeric ones leniently (`ValueError` → no filter), then run
the filter/sort/suggestions body. -/
def papers_list (data : List Paper) (q : ListQuery) : List Paper × List String :=
  papers_core data (queryYear q) (querySemester q)
    (String.mk (pyStrip q.subject.data)) (String.mk (pyStrip q.exam_type.data))

/-- `allowed_file` (src/app.py lines 33-34): the filename contains a dot
and the lower-cased text after the last dot is in {pdf, jpg, jpeg, png}. -/
def allowed_file (filename : String) : Bool :=
  filename.data.contains '.' &&
    (let ext := String.mk (pyLower ((filename.data.reverse.takeWhile (fun c => c ≠ '.')).reverse))
     ext == "pdf" || ext == "jpg" || ext == "jpeg" || ext == "png")

/-- Characters kept by werkzeug's `secure_filename` regex `[A-Za-z0-9_.-]`. -/
def sfKeep (c : Char) : Bool :=
  c.isAlpha || c.isDigit || c = '_' || c = '.' || c = '-'

/-- `werkzeug.utils.secure_filename` on a POSIX host for ASCII input:
replace `/` by a space, join the whitespace-split words with `_`, drop
characters outside `[A-Za-z0-9_.-]`, and strip leading/trailing `.`/`_`.
(The NFKD/ASCII normalization step and the Windows reserved-name guard are
identities on the app's POSIX deployment with ASCII names.) -/
def secure_filename (filename : String) : String :=
  let replaced := filename.data.map (fun c => if c = '/' then ' ' else c)
  let parts := (List.splitOnP pyIsSpace replaced).filter (fun w => w ≠ [])
  let joined := List.intercalate ['_'] parts
  let kept := joined.filter sfKeep
  let dotUs := fun c => c = '.' || c = '_'
  String.mk (((kept.dropWhile dotUs).reverse.dropWhile dotUs).reverse)

/-- One incoming file of a batch.  `deleteFails` models whether
`file_path.unlink()` on a stale duplicate would raise (src/app.py line 261). -/
structure FileUpload where
  filename : String
  deleteFails : Bool
deriving DecidableEq, Repr

/-- The mutable state threaded through the per-file loop of `upload`
(src/app.py lines 244-284): the file system (a list of relative paths
under the upload root), the in-memory collection, and the counters. -/
structure UploadState where
  fs : List String
  data : List Paper
  saved : Nat
  skipped : Nat
  warnings : List String
deriving DecidableEq, Repr

/-- The target directory `year/semester/subject/exam_type` of src/app.py
line 241 (relative to the upload root, POSIX separators). -/
def target_dir (year semester : Int) (subject exam_type : String) : String :=
  toString year ++ "/" ++ toString semester ++ "/" ++ subject ++ "/" ++ exam_type

/-- The record dict built at src/app.py lines 270-282. -/
def mkRecord (idv : Nat) (year semester : Int) (subject exam_type : String)
    (exam_year : Nat) (academic_year : Option String)
    (orig stored now : String) : Paper :=
  ⟨idv, year, semester, subject, exam_type, exam_year, academic_year, orig, stored, now⟩

/-- One iteration of the per-file loop of `upload` (src/app.py lines
249-284): skip unsupported extensions; on a destination collision delete
the stale file (skipping this file if the delete raises); save the file
and append a record with a freshly assigned id. -/
def processFile (year semester : Int) (subject exam_type : String)
    (exam_year : Nat) (academic_year : Option String) (now : String)
    (st : UploadState) (f : FileUpload) : UploadState :=
  if ¬ allowed_file f.filename then
    { st with skipped := st.skipped + 1,
              warnings := st.warnings ++ ["Skipped unsupported type: " ++ f.filename] }
  else
    let safe := secure_filename f.filename
    let path := target_dir year semester subject exam_type ++ "/" ++ safe
    let rec0 := mkRecord (next_id st.data) year semester subject exam_type
      exam_year academic_year f.filename path now
    if path ∈ st.fs then
      if f.deleteFails then
        { st with skipped := st.skipped + 1,
                  warnings := st.warnings ++ ["Couldn't remove old duplicate for " ++ safe] }
      else
        { fs := path :: st.fs.erase path, data := st.data ++ [rec0],
          saved := st.saved + 1, skipped := st.skipped, warnings := st.warnings }
    else
      { fs := path :: st.fs, data := st.data ++ [rec0],
        saved := st.saved + 1, skipped := st.skipped, warnings := st.warnings }

/-- The POST form consumed by `upload`; `""` stands for a missing field
(`request.form.get(...) or ...`). -/
structure UploadForm where
  subject : String
  exam_type : String
  year : String
  semester : String
  exam_year : String
  files : List FileUpload

/-- Result of one `upload` POST: `error` is the flashed rejection message
if the batch was rejected, `saves` lists the `save_data` calls made. -/
structure UploadOutcome where
  error : Option String
  fs : List String
  data : List Paper
  saved : Nat
  skipped : Nat
  warnings : List String
  saves : List (List Paper)
deriving DecidableEq, Repr

/-- Builds the rejection outcome of `upload`: nothing on disk or in the
collection is touched and `save_data` is never called. -/
def uploadReject (msg : String) (fs : List String) (stored : List Paper) : UploadOutcome :=
  ⟨some msg, fs, stored, 0, 0, [], []⟩

/-- The POST branch of `upload` (src/app.py lines 205-293): validate the
metadata (rejecting the whole batch before any disk access), then run the
per-file loop and persist the collection exactly once. -/
def upload (form : UploadForm) (now : String) (fs : List String) (stored : List Paper) : UploadOutcome :=
  let subject := String.mk (pyStrip form.subject.data)
  let exam_type := String.mk (pyStrip form.exam_type.data)
  match pyParseInt (if form.year = "" then "0" else form.year),
        pyParseInt (if form.semester = "" then "0" else form.semester) with
  | none, _ => uploadReject "Year/semester must be numbers." fs stored
  | some _, none => uploadReject "Year/semester must be numbers." fs stored
  | some year, some semester =>
    let raw_exam_year := String.mk (pyStrip form.exam_year.data)
    let pe := parse_exam_year raw_exam_year
    match pe.1 with
    | none => uploadReject "Please enter a valid year like 2024 or 2024-25." fs stored
    | some exam_year =>
      if exam_year < 2000 then
        uploadReject "Please enter a valid year like 2024 or 2024-25." fs stored
      else
        let files := form.files.filter (fun f => f.filename ≠ "")
        if files = [] then
          uploadReject "Please choose at least one file." fs stored
        else if subject = "" ∨ ¬(exam_type = "Mid" ∨ exam_type = "End") ∨
            ¬(year = 1 ∨ year = 2 ∨ year = 3 ∨ year = 4) ∨
            ¬(1 ≤ semester ∧ semester ≤ 8) then
          uploadReject "Please fill all fields correctly." fs stored
        else
          let stF := files.foldl
            (processFile year semester subject exam_type exam_year pe.2 now)
            ⟨fs, stored, 0, 0, []⟩
          ⟨none, stF.fs, stF.data, stF.saved, stF.skipped, stF.warnings, [stF.data]⟩

/-- Result of one `delete_paper` POST. -/
structure DeleteOutcome where
  found : Bool
  fs : List String
  data : List Paper
  warnings : List String
  saves : List (List Paper)
deriving DecidableEq, Repr

/-- `delete_paper` (src/app.py lines 299-323): look the id up; if absent,
report not-found and do nothing.  Otherwise unlink the backing file
(`missing_ok=True`, and a raising unlink — modelled by `unlinkFails` —
only flashes a warning), then drop every record with that id and persist. -/
def delete_paper (paper_id : Nat) (unlinkFails : Bool) (fs : List String) (data : List Paper) : DeleteOutcome :=
  match data.find? (fun p => p.id == paper_id) with
  | none => ⟨false, fs, data, [], []⟩
  | some record =>
    let rel := record.stored_path
    let step : List String × List String :=
      if rel ≠ "" then
        if unlinkFails then (fs, ["Couldn't remove file from disk"])
        else (fs.erase rel, [])
      else (fs, [])
    let data1 := data.filter (fun p => !(p.id == paper_id))
    ⟨true, step.1, data1, step.2, [data1]⟩

/-! ## Spec-side definitions (written from the specification's words, to be
compared with the definitions translated from the source) -/

/-- The bare form the spec says the Exam-Year Parser recognizes: a
four-digit year. -/
def specExamYearBare (s : List Char) : Bool :=
  s.length = 4 && s.all Char.isDigit

/-- The range form the spec says the parser recognizes: `YYYY-YY` or
`YYYY-YYYY` after normalization to a hyphen. -/
def specExamYearRange (s : List Char) : Bool :=
  match s with
  | a :: b :: c :: d :: '-' :: rest =>
    (a.isDigit && b.isDigit && c.isDigit && d.isDigit) &&
      (rest.length = 2 || rest.length = 4) && rest.all Char.isDigit
  | _ => false

/-- End-year reconstruction as the spec words it: a two-digit end
substitutes into the start year's century, a four-digit end is verbatim,
and an end year below the start is coerced to `start + 1`. -/
def specRangeEnd (start : Nat) (rest : List Char) : Nat :=
  let e := if rest.length = 4 then digitsVal rest else start / 100 * 100 + digitsVal rest
  if e < start then start + 1 else e

/-- The ordering the spec requires of the listing: exam_year descending,
then subject ascending, then exam_type ascending (code-point order). -/
def specOrder (x y : Paper) : Prop :=
  y.exam_year < x.exam_year ∨
    (x.exam_year = y.exam_year ∧
      (strLt x.subject.data y.subject.data = true ∨
        (x.subject = y.subject ∧
          (strLt x.exam_type.data y.exam_type.data = true ∨ x.exam_type = y.exam_type))))

/-- The metadata-validity condition the spec imposes on an upload batch:
year in {1,2,3,4}, semester in [1,8], exam_type in {Mid, End}, non-empty
subject, and an exam-year text parsing to a start year at least 2000. -/
def specMetaValid (form : UploadForm) : Prop :=
  (∃ y, pyParseInt (if form.year = "" then "0" else form.year) = some y ∧
    (y = 1 ∨ y = 2 ∨ y = 3 ∨ y = 4)) ∧
  (∃ m, pyParseInt (if form.semester = "" then "0" else form.semester) = some m ∧
    1 ≤ m ∧ m ≤ 8) ∧
  (String.mk (pyStrip form.exam_type.data) = "Mid" ∨
    String.mk (pyStrip form.exam_type.data) = "End") ∧
  String.mk (pyStrip form.subject.data) ≠ "" ∧
  (∃ ey, (parse_exam_year (String.mk (pyStrip form.exam_year.data))).1 = some ey ∧ 2000 ≤ ey)

/-- `true` when the string has a backslash. -/
def hasBackslash (s : String) : Bool :=
  s.data.any (fun c => c = '\\')

/-- `true` when the string starts with a forward slash. -/
def headIsSlash (s : String) : Bool :=
  match s.data with
  | [] => false
  | c :: _ => c = '/'

/-! ## Helper lemmas -/

theorem charToNat_inj {a b : Char} (h : a.toNat = b.toNat) : a = b :=
  Char.ext (UInt32.ext (by simpa [Char.toNat] using h))

theorem strLt_irrefl : ∀ l : List Char, strLt l l = false
  | [] => rfl
  | c :: cs => by simp [strLt, strLt_irrefl cs]

theorem strLt_trans : ∀ {a b c : List Char},
    strLt a b = true → strLt b c = true → strLt a c = true
  | [], b, c, hab, hbc => by
    cases b with
    | nil => simp [strLt] at hab
    | cons y ys =>
      cases c with
      | nil => simp [strLt] at hbc
      | cons z zs => simp [strLt]
  | x :: xs, b, c, hab, hbc => by
    cases b with
    | nil => simp [strLt] at hab
    | cons y ys =>
      cases c with
      | nil => simp [strLt] at hbc
      | cons z zs =>
        simp only [strLt, Bool.or_eq_true, decide_eq_true_eq, Bool.and_eq_true] at hab hbc ⊢
        rcases hab with h1 | ⟨h1, h1r⟩
        · rcases hbc with h2 | ⟨h2, _⟩
          · exact Or.inl (Nat.lt_trans h1 h2)
          · exact Or.inl (h2 ▸ h1)
        · rcases hbc with h2 | ⟨h2, h2r⟩
          · exact Or.inl (h1 ▸ h2)
          · exact Or.inr ⟨h1.trans h2, strLt_trans h1r h2r⟩

theorem strLt_connex : ∀ {a b : List Char}, a ≠ b →
    strLt a b = true ∨ strLt b a = true
  | [], [], h => absurd rfl h
  | [], _ :: _, _ => Or.inl (by simp [strLt])
  | _ :: _, [], _ => Or.inr (by simp [strLt])
  | x :: xs, y :: ys, h => by
    simp only [strLt, Bool.or_eq_true, decide_eq_true_eq, Bool.and_eq_true]
    rcases Nat.lt_trichotomy x.toNat y.toNat with hlt | heq | hgt
    · exact Or.inl (Or.inl hlt)
    · have hxy : x = y := charToNat_inj heq
      have hne : xs ≠ ys := by
        intro hc; exact h (by rw [hxy, hc])
      rcases strLt_connex hne with hl | hr
      · exact Or.inl (Or.inr ⟨hxy, hl⟩)
      · exact Or.inr (Or.inr ⟨hxy.symm, hr⟩)
    · exact Or.inr (Or.inl hgt)

theorem init_le_foldl_max : ∀ (l : List Nat) (a : Nat), a ≤ l.foldl max a
  | [], _ => le_rfl
  | b :: bs, a => le_trans (Nat.le_max_left a b) (init_le_foldl_max bs (max a b))

theorem mem_le_foldl_max : ∀ (l : List Nat) (a x : Nat), x ∈ l → x ≤ l.foldl max a
  | b :: bs, a, x, h => by
    rcases List.mem_cons.1 h with rfl | h2
    · exact le_trans (Nat.le_max_right a x) (init_le_foldl_max bs (max a x))
    · exact mem_le_foldl_max bs (max a b) x h2

theorem id_lt_next_id {data : List Paper} {p : Paper} (h : p ∈ data) :
    p.id < next_id data := by
  have := mem_le_foldl_max (data.map Paper.id) 0 p.id (List.mem_map_of_mem Paper.id h)
  unfold next_id
  omega

theorem pyReplace_nil (pat rep : List Char) : pyReplace pat rep [] = [] := rfl

theorem pyReplace_id_of_head_notMem {x : Char} {ps rep : List Char} :
    ∀ {l : List Char}, x ∉ l → pyReplace (x :: ps) rep l = l
  | [], _ => rfl
  | c :: cs, h => by
    have hxc : x ≠ c := fun hc => h (hc ▸ List.mem_cons_self c cs)
    have hcs : x ∉ cs := fun hc => h (List.mem_cons_of_mem c hc)
    rw [pyReplace_cons, if_neg, pyReplace_id_of_head_notMem hcs]
    intro hcond
    have := hcond.2
    simp [listStartsWith, hxc] at this

theorem pyReplace_single_notMem {x : Char} {rep : List Char} (hrep : x ∉ rep) :
    ∀ l : List Char, x ∉ pyReplace [x] rep l
  | [] => by simp [pyReplace_nil]
  | c :: cs => by
    by_cases hxc : x = c
    · rw [pyReplace_cons, if_pos]
      · intro hmem
        rcases List.mem_append.1 hmem with h1 | h2
        · exact hrep h1
        · simp only [List.length_cons, List.length_nil, Nat.add_sub_cancel,
            List.drop_zero] at h2
          exact pyReplace_single_notMem hrep cs h2
      · exact ⟨by simp, by simp [listStartsWith, hxc]⟩
    · rw [pyReplace_cons, if_neg]
      · intro hmem
        rcases List.mem_cons.1 hmem with h1 | h2
        · exact hxc h1
        · exact pyReplace_single_notMem hrep cs h2
      · intro hcond
        have := hcond.2
        simp [listStartsWith, hxc] at this

theorem pyReplace_notMem {pat rep : List Char} {x : Char} (hrep : x ∉ rep) :
    ∀ l : List Char, x ∉ l → x ∉ pyReplace pat rep l
  | [], _ => by simp [pyReplace_nil]
  | c :: cs, h => by
    by_cases hcond : pat ≠ [] ∧ listStartsWith pat (c :: cs)
    · rw [pyReplace_cons, if_pos hcond]
      intro hmem
      rcases List.mem_append.1 hmem with h1 | h2
      · exact hrep h1
      · have hcs : x ∉ cs := fun hc => h (List.mem_cons_of_mem c hc)
        have hdrop : x ∉ cs.drop (pat.length - 1) :=
          fun hc => hcs (List.mem_of_mem_drop hc)
        exact pyReplace_notMem hrep _ hdrop h2
    · rw [pyReplace_cons, if_neg hcond]
      intro hmem
      rcases List.mem_cons.1 hmem with h1 | h2
      · exact h (h1 ▸ List.mem_cons_self c cs)
      · exact pyReplace_notMem hrep cs (fun hc => h (List.mem_cons_of_mem c hc)) h2
termination_by l => l.length
decreasing_by
  · simp only [List.length_cons]
    have hd := List.length_drop (pat.length - 1) cs
    omega
  · simp

theorem dropWhile_head_false {p : Char → Bool} :
    ∀ l : List Char, (l.dropWhile p).head? = none ∨
      ∃ c cs, l.dropWhile p = c :: cs ∧ p c = false
  | [] => Or.inl rfl
  | c :: cs => by
    by_cases hc : p c = true
    · rw [List.dropWhile_cons_of_pos hc]
      exact dropWhile_head_false cs
    · rw [List.dropWhile_cons_of_neg hc]
      exact Or.inr ⟨c, cs, rfl, by simpa using hc⟩

theorem hasBackslash_heal (s : String) : hasBackslash (heal_stored_path s) = false := by
  have h := @pyReplace_single_notMem '\\' ['/'] (by decide)
    (pyReplace ['\\', '\\'] ['/'] s.data)
  show (pyReplace ['\\'] ['/'] (pyReplace ['\\', '\\'] ['/'] s.data)).any
    (fun c => c = '\\') = false
  rw [List.any_eq_false]
  intro x hx
  simp only [decide_eq_true_eq]
  intro hxeq
  exact h (hxeq ▸ hx)

theorem heal_idem (s : String) :
    heal_stored_path (heal_stored_path s) = heal_stored_path s := by
  have h := @pyReplace_single_notMem '\\' ['/'] (by decide)
    (pyReplace ['\\', '\\'] ['/'] s.data)
  show String.mk (pyReplace ['\\'] ['/'] (pyReplace ['\\', '\\'] ['/']
      (pyReplace ['\\'] ['/'] (pyReplace ['\\', '\\'] ['/'] s.data)))) =
    String.mk (pyReplace ['\\'] ['/'] (pyReplace ['\\', '\\'] ['/'] s.data))
  rw [pyReplace_id_of_head_notMem h, pyReplace_id_of_head_notMem h]

theorem hasBackslash_serve (s : String) : hasBackslash (serve_relpath s) = false := by
  have h1 := @pyReplace_single_notMem '\\' ['/'] (by decide) s.data
  have h2 := @pyReplace_notMem ['/', '/'] ['/'] '\\' (by decide) _ h1
  show ((pyReplace ['/', '/'] ['/'] (pyReplace ['\\'] ['/'] s.data)).dropWhile
    (fun c => c = '/')).any (fun c => c = '\\') = false
  rw [List.any_eq_false]
  intro x hx
  simp only [decide_eq_true_eq]
  intro hxeq
  exact h2 ((List.dropWhile_sublist _).mem (hxeq ▸ hx))

theorem headIsSlash_serve (s : String) : headIsSlash (serve_relpath s) = false := by
  rcases dropWhile_head_false (p := fun c => decide (c = '/'))
      (pyReplace ['/', '/'] ['/'] (pyReplace ['\\'] ['/'] s.data)) with h | ⟨c, cs, heq, hc⟩
  · rw [List.head?_eq_none_iff] at h
    show headIsSlash (String.mk ((pyReplace ['/', '/'] ['/']
      (pyReplace ['\\'] ['/'] s.data)).dropWhile (fun c => c = '/'))) = false
    rw [h]
    rfl
  · show headIsSlash (String.mk ((pyReplace ['/', '/'] ['/']
      (pyReplace ['\\'] ['/'] s.data)).dropWhile (fun c => c = '/'))) = false
    rw [heq]
    simpa [headIsSlash] using hc

/-- C5 counterexample records. -/
def samplePaper3 : Paper :=
  ⟨3, 1, 1, "maths", "Mid", 2023, none, "a.pdf", "1/1/maths/Mid/a.pdf", "2024-01-01T00:00:00"⟩

def samplePaper7 : Paper :=
  ⟨7, 1, 1, "maths", "Mid", 2024, none, "b.pdf", "1/1/maths/Mid/b.pdf", "2024-01-01T00:00:00"⟩

/-! ## Claim theorems -/

/-- C1, counterexample: the claim says that after removing the record with
id 7 from a collection with ids {3, 7}, the next assigned id is still 8.
On the code it is 4: `next_id` is computed from the ids present now, so
the id of a deleted maximum is reused. -/
theorem C1_counterexample :
    next_id ((delete_paper 7 false [] [samplePaper3, samplePaper7]).data) ≠ 8 ∧
    next_id ((delete_paper 7 false [] [samplePaper3, samplePaper7]).data) = 4 := by
  constructor
  · decide
  · decide

/-- C1, amended: `next_id` returns (max existing id, default 0) + 1, which
is strictly above every id present in the collection: 1 on an empty
collection, 8 on ids {3, 7}; but ids are recycled after a deletion — after
removing the record with id 7 from {3, 7} the next append is assigned 4. -/
theorem C1_next_id :
    next_id [] = 1 ∧
    next_id [samplePaper3, samplePaper7] = 8 ∧
    next_id ((delete_paper 7 false [] [samplePaper3, samplePaper7]).data) = 4 ∧
    ∀ (data : List Paper) (p : Paper), p ∈ data → p.id < next_id data := by
  refine ⟨by decide, by decide, by decide, ?_⟩
  intro data p hp
  exact id_lt_next_id hp

/-- Witness for C1_next_id at a concrete collection. -/
theorem C1_next_id_witness : samplePaper3.id < next_id [samplePaper3] :=
  C1_next_id.2.2.2 [samplePaper3] samplePaper3 (List.mem_cons_self _ _)

/-- C5, counterexample: the serve-time normalizer is not idempotent
(`a///b` collapses to `a//b`, and only a second pass gives `a/b`), and the
startup healer does not remove a leading slash. -/
theorem C5_counterexample :
    serve_relpath (serve_relpath "a///b") ≠ serve_relpath "a///b" ∧
    headIsSlash (heal_stored_path "/a") = true := by
  constructor
  · decide
  · decide

/-- C5, amended: both normalizers return backslash-free strings and send
`a\b\\c` to `a/b/c`; the startup healer is idempotent (but keeps leading
slashes and doubled forward slashes), while the serve-time normalizer
strips leading slashes (but is not idempotent on runs of three or more
slashes).  The startup pass rewrites every stored_path through the healer. -/
theorem C5_path_normalizers :
    (∀ s : String, hasBackslash (heal_stored_path s) = false) ∧
    (∀ s : String, heal_stored_path (heal_stored_path s) = heal_stored_path s) ∧
    (∀ s : String, hasBackslash (serve_relpath s) = false) ∧
    (∀ s : String, headIsSlash (serve_relpath s) = false) ∧
    heal_stored_path "a\\b\\\\c" = "a/b/c" ∧
    serve_relpath "a\\b\\\\c" = "a/b/c" ∧
    ∀ (data : List Paper), (normalize_data_paths data).1 =
      data.map (fun p => { p with stored_path := heal_stored_path p.stored_path }) :=
  ⟨hasBackslash_heal, heal_idem, hasBackslash_serve, headIsSlash_serve,
    by decide, by decide, fun _ => rfl⟩

/-- C10: a `year` or `semester` query parameter that does not parse as an
integer is treated exactly like an absent parameter — the listing result
is unchanged and no error is produced (the embedding is a total function). -/
theorem C10_lenient_numeric_filters :
    (∀ (data : List Paper) (q : ListQuery), queryYear q = none →
      papers_list data q = papers_list data ⟨"", q.semester, q.subject, q.exam_type⟩) ∧
    (∀ (data : List Paper) (q : ListQuery), querySemester q = none →
      papers_list data q = papers_list data ⟨q.year, "", q.subject, q.exam_type⟩) ∧
    queryYear ⟨"abc", "", "", ""⟩ = none ∧
    querySemester ⟨"", "abc", "", ""⟩ = none := by
  refine ⟨?_, ?_, by decide, by decide⟩
  · intro data q h
    show papers_core data (queryYear q) (querySemester q) _ _ = _
    rw [h]
    rfl
  · intro data q h
    show papers_core data (queryYear q) (querySemester q) _ _ = _
    rw [h]
    rfl

/-- Witness for C10 at a concrete query. -/
theorem C10_witness :
    papers_list [samplePaper3] ⟨"abc", "", "", ""⟩ =
      papers_list [samplePaper3] ⟨"", "", "", ""⟩ :=
  C10_lenient_numeric_filters.1 [samplePaper3] ⟨"abc", "", "", ""⟩ (by decide)

theorem sInsert_perm (le : α → α → Bool) (x : α) :
    ∀ l : List α, List.Perm (sInsert le x l) (x :: l)
  | [] => List.Perm.refl _
  | y :: ys => by
    simp only [sInsert]
    by_cases h : le y x && !(le x y)
    · rw [if_pos h]
      exact ((sInsert_perm le x ys).cons y).trans (List.Perm.swap x y ys)
    · rw [if_neg h]

theorem stableSort_perm (le : α → α → Bool) : ∀ l : List α, List.Perm (stableSort le l) l
  | [] => List.Perm.refl _
  | x :: xs => by
    show List.Perm (sInsert le x (stableSort le xs)) (x :: xs)
    exact (sInsert_perm le x _).trans ((stableSort_perm le xs).cons x)

theorem pairwise_sInsert {α : Type u} {le : α → α → Bool}
    (htr : ∀ a b c, le a b = true → le b c = true → le a c = true)
    (hto : ∀ a b, le a b = true ∨ le b a = true) (x : α) :
    ∀ {l : List α}, l.Pairwise (fun a b => le a b = true) →
      (sInsert le x l).Pairwise (fun a b => le a b = true)
  | [], _ => by simp [sInsert]
  | y :: ys, hp => by
    rcases List.pairwise_cons.1 hp with ⟨hy, hys⟩
    simp only [sInsert]
    by_cases h : le y x && !(le x y)
    · rw [if_pos h]
      refine List.pairwise_cons.2 ⟨?_, pairwise_sInsert htr hto x hys⟩
      intro z hz
      rcases List.mem_cons.1 ((sInsert_perm le x ys).mem_iff.1 hz) with hzx | hzys
      · have hh : le y x = true ∧ (!le x y) = true := by simpa using h
        rw [hzx]
        exact hh.1
      · exact hy z hzys
    · rw [if_neg h]
      have hxy : le x y = true := by
        by_contra h0
        have hf : le x y = false := by
          cases hle : le x y
          · rfl
          · exact absurd hle h0
        rcases hto x y with h1 | h1
        · exact h0 h1
        · exact h (by rw [h1, hf]; rfl)
      refine List.pairwise_cons.2 ⟨?_, hp⟩
      intro z hz
      rcases List.mem_cons.1 hz with rfl | hzys
      · exact hxy
      · exact htr x y z hxy (hy z hzys)

theorem pairwise_stableSort {α : Type u} {le : α → α → Bool}
    (htr : ∀ a b c, le a b = true → le b c = true → le a c = true)
    (hto : ∀ a b, le a b = true ∨ le b a = true) :
    ∀ l : List α, (stableSort le l).Pairwise (fun a b => le a b = true)
  | [] => List.Pairwise.nil
  | x :: xs => by
    show (sInsert le x (stableSort le xs)).Pairwise (fun a b => le a b = true)
    exact pairwise_sInsert htr hto x (pairwise_stableSort htr hto xs)

theorem strLt_of_ne_of_not_lt {a b : List Char} (hne : a ≠ b)
    (h : strLt a b = false) : strLt b a = true := by
  rcases strLt_connex hne with h1 | h1
  · rw [h1] at h
    cases h
  · exact h1

theorem string_ne_data {a b : String} (h : a ≠ b) : a.data ≠ b.data :=
  fun hd => h (String.ext hd)

theorem paper_key_le_of_ne {x y : Paper} (h : x.exam_year ≠ y.exam_year) :
    paper_key_le x y = decide (y.exam_year < x.exam_year) := by
  unfold paper_key_le
  rw [if_pos h]

theorem paper_key_le_of_subj_ne {x y : Paper} (h : x.exam_year = y.exam_year)
    (hs : x.subject ≠ y.subject) :
    paper_key_le x y = strLt x.subject.data y.subject.data := by
  unfold paper_key_le
  rw [if_neg (fun hc => hc h), if_pos hs]

theorem paper_key_le_of_subj_eq {x y : Paper} (h : x.exam_year = y.exam_year)
    (hs : x.subject = y.subject) :
    paper_key_le x y =
      (strLt x.exam_type.data y.exam_type.data || decide (x.exam_type = y.exam_type)) := by
  unfold paper_key_le
  rw [if_neg (fun hc => hc h), if_neg (fun hc => hc hs)]

theorem paper_key_le_total (x y : Paper) :
    paper_key_le x y = true ∨ paper_key_le y x = true := by
  by_cases h1 : x.exam_year = y.exam_year
  · by_cases h2 : x.subject = y.subject
    · rw [paper_key_le_of_subj_eq h1 h2, paper_key_le_of_subj_eq h1.symm h2.symm]
      by_cases h3 : x.exam_type = y.exam_type
      · left
        simp [h3]
      · rcases strLt_connex (string_ne_data h3) with h4 | h4
        · left
          rw [h4]
          simp
        · right
          rw [h4]
          simp
    · rw [paper_key_le_of_subj_ne h1 h2, paper_key_le_of_subj_ne h1.symm (Ne.symm h2)]
      exact strLt_connex (string_ne_data h2)
  · rw [paper_key_le_of_ne h1, paper_key_le_of_ne (Ne.symm h1)]
    simp only [decide_eq_true_eq]
    omega

theorem paper_key_le_trans (x y z : Paper) (hxy : paper_key_le x y = true)
    (hyz : paper_key_le y z = true) : paper_key_le x z = true := by
  by_cases h1 : x.exam_year = y.exam_year
  · by_cases h2 : y.exam_year = z.exam_year
    · have h13 : x.exam_year = z.exam_year := h1.trans h2
      by_cases hs1 : x.subject = y.subject
      · by_cases hs2 : y.subject = z.subject
        · have hs13 : x.subject = z.subject := hs1.trans hs2
          rw [paper_key_le_of_subj_eq h1 hs1] at hxy
          rw [paper_key_le_of_subj_eq h2 hs2] at hyz
          rw [paper_key_le_of_subj_eq h13 hs13]
          simp only [Bool.or_eq_true, decide_eq_true_eq] at hxy hyz ⊢
          rcases hxy with h4 | h4
          · rcases hyz with h5 | h5
            · exact Or.inl (strLt_trans h4 h5)
            · exact Or.inl (h5 ▸ h4)
          · rcases hyz with h5 | h5
            · refine Or.inl ?_
              rw [h4]
              exact h5
            · exact Or.inr (h4.trans h5)
        · have hs13 : x.subject ≠ z.subject := by
            rw [hs1]
            exact hs2
          rw [paper_key_le_of_subj_ne h2 hs2] at hyz
          rw [paper_key_le_of_subj_ne h13 hs13, hs1]
          exact hyz
      · by_cases hs2 : y.subject = z.subject
        · have hs13 : x.subject ≠ z.subject := by
            rw [← hs2]
            exact hs1
          rw [paper_key_le_of_subj_ne h1 hs1] at hxy
          rw [paper_key_le_of_subj_ne h13 hs13, ← hs2]
          exact hxy
        · rw [paper_key_le_of_subj_ne h1 hs1] at hxy
          rw [paper_key_le_of_subj_ne h2 hs2] at hyz
          have h4 := strLt_trans hxy hyz
          have hs13 : x.subject ≠ z.subject := by
            intro hc
            rw [hc, strLt_irrefl] at h4
            cases h4
          rw [paper_key_le_of_subj_ne h13 hs13]
          exact h4
    · have h13 : x.exam_year ≠ z.exam_year := by
        rw [h1]
        exact h2
      rw [paper_key_le_of_ne h2] at hyz
      rw [paper_key_le_of_ne h13]
      simp only [decide_eq_true_eq] at hyz ⊢
      omega
  · by_cases h2 : y.exam_year = z.exam_year
    · have h13 : x.exam_year ≠ z.exam_year := by
        rw [← h2]
        exact h1
      rw [paper_key_le_of_ne h1] at hxy
      rw [paper_key_le_of_ne h13]
      simp only [decide_eq_true_eq] at hxy ⊢
      omega
    · rw [paper_key_le_of_ne h1] at hxy
      rw [paper_key_le_of_ne h2] at hyz
      simp only [decide_eq_true_eq] at hxy hyz
      have h13 : x.exam_year ≠ z.exam_year := by omega
      rw [paper_key_le_of_ne h13]
      simp only [decide_eq_true_eq]
      omega

theorem paper_key_le_specOrder {x y : Paper} (h : paper_key_le x y = true) :
    specOrder x y := by
  unfold specOrder
  by_cases h1 : x.exam_year = y.exam_year
  · by_cases h2 : x.subject = y.subject
    · rw [paper_key_le_of_subj_eq h1 h2] at h
      simp only [Bool.or_eq_true, decide_eq_true_eq] at h
      exact Or.inr ⟨h1, Or.inr ⟨h2, h⟩⟩
    · rw [paper_key_le_of_subj_ne h1 h2] at h
      exact Or.inr ⟨h1, Or.inl h⟩
  · rw [paper_key_le_of_ne h1] at h
    simp only [decide_eq_true_eq] at h
    exact Or.inl h

/-- Three records identical except for exam_year, for the sorting example. -/
def sortPaper1 : Paper :=
  ⟨1, 1, 1, "maths", "Mid", 2023, none, "a.pdf", "1/1/maths/Mid/a.pdf", "t"⟩

def sortPaper2 : Paper :=
  ⟨2, 1, 1, "maths", "Mid", 2025, none, "b.pdf", "1/1/maths/Mid/b.pdf", "t"⟩

def sortPaper3 : Paper :=
  ⟨3, 1, 1, "maths", "Mid", 2024, none, "c.pdf", "1/1/maths/Mid/c.pdf", "t"⟩

/-- C6: for every collection and every combination of optional filters the
listing returns exactly the records accepted by the filter predicate
(year/semester/exam_type by equality, subject case-insensitively), ordered
by exam_year descending, then subject, then exam_type ascending; records
with exam_years {2023, 2025, 2024} and equal subject/type come out
2025, 2024, 2023, and the filter "Maths" matches a stored "maths". -/
theorem C6_listing :
    (∀ (data : List Paper) (q : ListQuery),
      List.Perm (papers_list data q).1
        (data.filter (paperMatches (queryYear q) (querySemester q)
          (String.mk (pyStrip q.subject.data)) (String.mk (pyStrip q.exam_type.data)))) ∧
      (papers_list data q).1.Pairwise specOrder) ∧
    (papers_list [sortPaper1, sortPaper2, sortPaper3] ⟨"", "", "", ""⟩).1.map Paper.exam_year
      = [2025, 2024, 2023] ∧
    (papers_list [sortPaper1] ⟨"", "", "Maths", ""⟩).1 = [sortPaper1] := by
  refine ⟨?_, by decide, by decide⟩
  intro data q
  constructor
  · exact stableSort_perm paper_key_le _
  · exact (pairwise_stableSort paper_key_le_trans paper_key_le_total _).imp
      paper_key_le_specOrder

theorem dropWhile_all_false {p : Char → Bool} :
    ∀ {l : List Char}, (∀ c ∈ l, p c = false) → l.dropWhile p = l
  | [], _ => rfl
  | c :: cs, h => by
    rw [List.dropWhile_cons_of_neg]
    rw [h c (List.mem_cons_self c cs)]
    simp

theorem pyStrip_eq_self {l : List Char} (h : ∀ c ∈ l, pyIsSpace c = false) :
    pyStrip l = l := by
  unfold pyStrip
  rw [dropWhile_all_false h, dropWhile_all_false, List.reverse_reverse]
  intro c hc
  exact h c (List.mem_reverse.1 hc)

theorem isDigit_toNat {c : Char} (h : c.isDigit = true) :
    48 ≤ c.toNat ∧ c.toNat ≤ 57 := by
  simp only [Char.isDigit, Bool.and_eq_true, decide_eq_true_eq] at h
  exact ⟨h.1, h.2⟩

theorem toNat_plain_char {c : Char} (h45 : 45 ≤ c.toNat) (h57 : c.toNat ≤ 57) :
    pyIsSpace c = false ∧ c ≠ '–' ∧ c ≠ '—' ∧ c ≠ ' ' := by
  refine ⟨?_, ?_, ?_, ?_⟩
  · unfold pyIsSpace
    have h1 : c ≠ ' ' := fun hc => by rw [hc] at h45; exact absurd h45 (by decide)
    have h2 : c ≠ '\t' := fun hc => by rw [hc] at h45; exact absurd h45 (by decide)
    have h3 : c ≠ '\n' := fun hc => by rw [hc] at h45; exact absurd h45 (by decide)
    have h4 : c ≠ '\r' := fun hc => by rw [hc] at h45; exact absurd h45 (by decide)
    have h5 : c ≠ '\x0b' := fun hc => by rw [hc] at h45; exact absurd h45 (by decide)
    have h6 : c ≠ '\x0c' := fun hc => by rw [hc] at h45; exact absurd h45 (by decide)
    simp [h1, h2, h3, h4, h5, h6]
  · intro hc
    rw [hc] at h57
    exact absurd h57 (by decide)
  · intro hc
    rw [hc] at h57
    exact absurd h57 (by decide)
  · intro hc
    rw [hc] at h45
    exact absurd h45 (by decide)

/-- On a list of digits and hyphens, the exam-year normalization is the
identity. -/
theorem examYearNormalize_plain {l : List Char}
    (h : ∀ c ∈ l, c.isDigit = true ∨ c = '-') :
    examYearNormalize (String.mk l) = l := by
  have hplain : ∀ c ∈ l, pyIsSpace c = false ∧ c ≠ '–' ∧ c ≠ '—' ∧ c ≠ ' ' := by
    intro c hc
    rcases h c hc with hd | hd
    · have := isDigit_toNat hd
      exact toNat_plain_char (by omega) (by omega)
    · rw [hd]
      exact toNat_plain_char (by decide) (by decide)
  have hdata : (String.mk l).data = l := rfl
  unfold examYearNormalize
  rw [hdata, pyStrip_eq_self (fun c hc => (hplain c hc).1),
    pyReplace_id_of_head_notMem (fun hc => (hplain _ hc).2.1 rfl),
    pyReplace_id_of_head_notMem (fun hc => (hplain _ hc).2.2.1 rfl),
    pyReplace_id_of_head_notMem (fun hc => (hplain _ hc).2.2.2 rfl)]

theorem parse_exam_year_shape (v : String) :
    ((parse_exam_year v).1.isSome =
      (specExamYearBare (examYearNormalize v) || specExamYearRange (examYearNormalize v))) ∧
    ((parse_exam_year v).2.isSome = specExamYearRange (examYearNormalize v)) := by
  have hrw : parse_exam_year v =
      (if (examYearNormalize v).length = 4 ∧ (examYearNormalize v).all Char.isDigit then
        (some (digitsVal (examYearNormalize v)), none)
      else
        match examYearNormalize v with
        | a :: b :: c :: d :: '-' :: rest =>
          if (a.isDigit && b.isDigit && c.isDigit && d.isDigit) ∧
              (rest.length = 2 ∨ rest.length = 4) ∧ rest.all Char.isDigit then
            (some (digitsVal [a, b, c, d]),
             some (Nat.repr (digitsVal [a, b, c, d]) ++ "-" ++
               Nat.repr (examRangeEnd (digitsVal [a, b, c, d]) rest)))
          else (none, none)
        | _ => (none, none)) := rfl
  rw [hrw]
  generalize examYearNormalize v = s
  by_cases hbare : s.length = 4 ∧ s.all Char.isDigit
  · rw [if_pos hbare]
    have hb : specExamYearBare s = true := by
      unfold specExamYearBare
      simp [hbare.1, hbare.2]
    have hr : specExamYearRange s = false := by
      have h4 := hbare.1
      rcases s with _ | ⟨a, _ | ⟨b, _ | ⟨c, _ | ⟨d, _ | ⟨e, rest⟩⟩⟩⟩⟩
      · rfl
      · rfl
      · rfl
      · rfl
      · rfl
      · exfalso
        simp only [List.length_cons] at h4
        omega
    rw [hb, hr]
    exact ⟨rfl, rfl⟩
  · rw [if_neg hbare]
    have hbf : specExamYearBare s = false := by
      by_cases h4 : s.length = 4
      · by_cases hall : s.all Char.isDigit = true
        · exact absurd ⟨h4, hall⟩ hbare
        · simp [specExamYearBare, h4, hall]
      · simp [specExamYearBare, h4]
    rw [hbf, Bool.false_or]
    split
    · rename_i a b c d rest
      by_cases hP : (a.isDigit && b.isDigit && c.isDigit && d.isDigit) ∧
          (rest.length = 2 ∨ rest.length = 4) ∧ rest.all Char.isDigit
      · rw [if_pos hP]
        have hr : specExamYearRange (a :: b :: c :: d :: '-' :: rest) = true := by
          show ((a.isDigit && b.isDigit && c.isDigit && d.isDigit) &&
            (decide (rest.length = 2) || decide (rest.length = 4)) &&
            rest.all Char.isDigit) = true
          rw [hP.1, hP.2.2]
          rcases hP.2.1 with h | h <;> simp [h]
        rw [hr]
        exact ⟨rfl, rfl⟩
      · rw [if_neg hP]
        have hr : specExamYearRange (a :: b :: c :: d :: '-' :: rest) = false := by
          cases hv : specExamYearRange (a :: b :: c :: d :: '-' :: rest)
          · rfl
          · exfalso
            unfold specExamYearRange at hv
            simp only [Bool.and_eq_true, Bool.or_eq_true, decide_eq_true_eq] at hv
            refine hP ⟨?_, hv.1.2, hv.2⟩
            simp only [Bool.and_eq_true]
            exact hv.1.1
        rw [hr]
        exact ⟨rfl, rfl⟩
    · rename_i hne
      have hr : specExamYearRange s = false := by
        unfold specExamYearRange
        split
        · rename_i a b c d rest
          exact absurd rfl (hne a b c d rest)
        · rfl
      rw [hr]
      exact ⟨rfl, rfl⟩

/-- C3: the Exam-Year Parser recognizes exactly a bare four-digit year
(returning `(year, none)`) and a normalized range `YYYY-YY` / `YYYY-YYYY`
(returning `(start, display)`), and returns `(none, none)` on everything
else; it is a total function.  Concretely: "2024" ↦ (2024, none),
"2024-25" ↦ (2024, "2024-2025"), "2024–2026" (en dash) ↦
(2024, "2024-2026"), "abc" ↦ (none, none). -/
theorem C3_exam_year_parsing :
    parse_exam_year "2024" = (some 2024, none) ∧
    parse_exam_year "2024-25" = (some 2024, some "2024-2025") ∧
    parse_exam_year "2024–2026" = (some 2024, some "2024-2026") ∧
    parse_exam_year "abc" = (none, none) ∧
    ∀ v : String,
      ((parse_exam_year v).1.isSome =
        (specExamYearBare (examYearNormalize v) || specExamYearRange (examYearNormalize v))) ∧
      ((parse_exam_year v).2.isSome = specExamYearRange (examYearNormalize v)) :=
  ⟨by decide, by decide, by decide, by decide, parse_exam_year_shape⟩

/-- C4: for a recognized range, the end year is reconstructed as the spec
says — two supplied digits substitute into the start year's century, four
are verbatim, and an end below the start is coerced to start + 1; in
particular "2024-05" displays "2024-2025" and "2099-00" gives end 2100. -/
theorem C4_range_reconstruction :
    parse_exam_year "2024-05" = (some 2024, some "2024-2025") ∧
    parse_exam_year "2099-00" = (some 2099, some "2099-2100") ∧
    (∀ start rest, examRangeEnd start rest = specRangeEnd start rest) ∧
    ∀ (a b c d : Char) (rest : List Char),
      (a.isDigit && b.isDigit && c.isDigit && d.isDigit) = true →
      (rest.length = 2 ∨ rest.length = 4) → rest.all Char.isDigit = true →
      parse_exam_year (String.mk (a :: b :: c :: d :: '-' :: rest)) =
        (some (digitsVal [a, b, c, d]),
         some (Nat.repr (digitsVal [a, b, c, d]) ++ "-" ++
           Nat.repr (specRangeEnd (digitsVal [a, b, c, d]) rest))) := by
  refine ⟨by decide, by decide, fun start rest => rfl, ?_⟩
  intro a b c d rest hdig hlen hall
  have hdig4 : a.isDigit = true ∧ b.isDigit = true ∧ c.isDigit = true ∧ d.isDigit = true := by
    simp only [Bool.and_eq_true] at hdig
    exact ⟨hdig.1.1.1, hdig.1.1.2, hdig.1.2, hdig.2⟩
  have hmem : ∀ e ∈ (a :: b :: c :: d :: '-' :: rest), e.isDigit = true ∨ e = '-' := by
    intro e he
    rcases List.mem_cons.1 he with h | he
    · exact Or.inl (h ▸ hdig4.1)
    rcases List.mem_cons.1 he with h | he
    · exact Or.inl (h ▸ hdig4.2.1)
    rcases List.mem_cons.1 he with h | he
    · exact Or.inl (h ▸ hdig4.2.2.1)
    rcases List.mem_cons.1 he with h | he
    · exact Or.inl (h ▸ hdig4.2.2.2)
    rcases List.mem_cons.1 he with h | he
    · exact Or.inr h
    · exact Or.inl (by
        rw [List.all_eq_true] at hall
        exact hall e he)
  have hnorm := examYearNormalize_plain hmem
  have hlen7 : ¬((examYearNormalize (String.mk (a :: b :: c :: d :: '-' :: rest))).length = 4 ∧
      (examYearNormalize (String.mk (a :: b :: c :: d :: '-' :: rest))).all Char.isDigit) := by
    rw [hnorm]
    intro hc
    have := hc.1
    simp only [List.length_cons] at this
    omega
  show (if (examYearNormalize (String.mk (a :: b :: c :: d :: '-' :: rest))).length = 4 ∧
      (examYearNormalize (String.mk (a :: b :: c :: d :: '-' :: rest))).all Char.isDigit then _
    else _) = _
  rw [if_neg hlen7, hnorm]
  show (if (a.isDigit && b.isDigit && c.isDigit && d.isDigit) ∧
      (rest.length = 2 ∨ rest.length = 4) ∧ rest.all Char.isDigit then
      (some (digitsVal [a, b, c, d]),
       some (Nat.repr (digitsVal [a, b, c, d]) ++ "-" ++
         Nat.repr (examRangeEnd (digitsVal [a, b, c, d]) rest)))
    else (none, none)) = _
  rw [if_pos ⟨hdig, hlen, hall⟩]
  rfl

/-- Witness for C4 at "2024-25" spelled as an explicit character list. -/
theorem C4_witness :
    parse_exam_year (String.mk ['2', '0', '2', '4', '-', '2', '5']) =
      (some 2024, some "2024-2025") := by
  have h := C4_range_reconstruction.2.2.2 '2' '0' '2' '4' ['2', '5']
    (by decide) (Or.inl rfl) (by decide)
  rw [h]
  decide

theorem processFile_counts (year semester : Int) (subject exam_type : String)
    (exam_year : Nat) (academic_year : Option String) (now : String)
    (st : UploadState) (f : FileUpload) :
    (processFile year semester subject exam_type exam_year academic_year now st f).saved +
        (processFile year semester subject exam_type exam_year academic_year now st f).skipped =
      st.saved + st.skipped + 1 ∧
    (processFile year semester subject exam_type exam_year academic_year now st f).data.length +
        st.saved =
      st.data.length +
        (processFile year semester subject exam_type exam_year academic_year now st f).saved := by
  unfold processFile
  dsimp only
  split
  · constructor <;> (first | omega | (simp <;> omega))
  · split
    · split
      · constructor <;> (first | omega | (simp <;> omega))
      · constructor <;> (first | omega | (simp <;> omega))
    · constructor <;> (first | omega | (simp <;> omega))

theorem uploadFold_counts (year semester : Int) (subject exam_type : String)
    (exam_year : Nat) (academic_year : Option String) (now : String) :
    ∀ (files : List FileUpload) (st : UploadState),
      (files.foldl (processFile year semester subject exam_type exam_year academic_year now)
          st).saved +
        (files.foldl (processFile year semester subject exam_type exam_year academic_year now)
          st).skipped = st.saved + st.skipped + files.length ∧
      (files.foldl (processFile year semester subject exam_type exam_year academic_year now)
          st).data.length + st.saved =
        st.data.length +
          (files.foldl (processFile year semester subject exam_type exam_year academic_year now)
            st).saved
  | [], st => ⟨by simp, by simp⟩
  | f :: fs, st => by
    have h1 := processFile_counts year semester subject exam_type exam_year academic_year now st f
    have h2 := uploadFold_counts year semester subject exam_type exam_year academic_year now fs
      (processFile year semester subject exam_type exam_year academic_year now st f)
    simp only [List.foldl_cons, List.length_cons]
    omega

theorem processFile_ids (year semester : Int) (subject exam_type : String)
    (exam_year : Nat) (academic_year : Option String) (now : String)
    (st : UploadState) (f : FileUpload)
    (h : (st.data.map Paper.id).Nodup ∧ ∀ p ∈ st.data, 0 < p.id) :
    ((processFile year semester subject exam_type exam_year academic_year now st f).data.map
      Paper.id).Nodup ∧
    ∀ p ∈ (processFile year semester subject exam_type exam_year academic_year now st f).data,
      0 < p.id := by
  have happ : ∀ path : String,
      ((st.data ++ [mkRecord (next_id st.data) year semester subject exam_type
          exam_year academic_year f.filename path now]).map Paper.id).Nodup ∧
      ∀ p ∈ st.data ++ [mkRecord (next_id st.data) year semester subject exam_type
          exam_year academic_year f.filename path now], 0 < p.id := by
    intro path
    constructor
    · rw [List.map_append, List.nodup_append]
      refine ⟨h.1, List.nodup_singleton _, ?_⟩
      intro i hi
      simp only [List.map_cons, List.map_nil, List.mem_singleton]
      intro hc
      rcases List.mem_map.1 hi with ⟨p, hp, hip⟩
      have hlt := id_lt_next_id hp
      have hcn : i = next_id st.data := hc
      omega
    · intro p hp
      rcases List.mem_append.1 hp with h1 | h1
      · exact h.2 p h1
      · rcases List.mem_singleton.1 h1 with rfl
        show 0 < next_id st.data
        unfold next_id
        omega
  unfold processFile
  dsimp only
  split
  · exact h
  · split
    · split
      · exact h
      · exact happ _
    · exact happ _

theorem uploadFold_ids (year semester : Int) (subject exam_type : String)
    (exam_year : Nat) (academic_year : Option String) (now : String) :
    ∀ (files : List FileUpload) (st : UploadState),
      (st.data.map Paper.id).Nodup → (∀ p ∈ st.data, 0 < p.id) →
      ((files.foldl (processFile year semester subject exam_type exam_year academic_year now)
          st).data.map Paper.id).Nodup ∧
      ∀ p ∈ (files.foldl (processFile year semester subject exam_type exam_year academic_year now)
          st).data, 0 < p.id
  | [], st, h1, h2 => ⟨h1, h2⟩
  | f :: fs, st, h1, h2 => by
    have hstep := processFile_ids year semester subject exam_type exam_year academic_year now
      st f ⟨h1, h2⟩
    simp only [List.foldl_cons]
    exact uploadFold_ids year semester subject exam_type exam_year academic_year now fs _
      hstep.1 hstep.2

/-- Case analysis of one `upload` POST: either the batch is rejected — the
file system, the collection and the persisted state are untouched, and the
spec-side validity condition fails — or it is accepted, the validity
condition holds, and the outcome is the per-file fold followed by a single
save. -/
theorem upload_cases (form : UploadForm) (now : String) (fs : List String) (stored : List Paper) :
    ((upload form now fs stored).error.isSome = true ∧ (upload form now fs stored).fs = fs ∧
      (upload form now fs stored).data = stored ∧ (upload form now fs stored).saves = [] ∧
      ¬(specMetaValid form ∧ form.files.filter (fun f => f.filename ≠ "") ≠ [])) ∨
    ((upload form now fs stored).error = none ∧
      (specMetaValid form ∧ form.files.filter (fun f => f.filename ≠ "") ≠ []) ∧
      ∃ year semester : Int, ∃ exam_year : Nat,
        upload form now fs stored =
          ⟨none,
           ((form.files.filter (fun f => f.filename ≠ "")).foldl
             (processFile year semester (String.mk (pyStrip form.subject.data))
               (String.mk (pyStrip form.exam_type.data)) exam_year
               (parse_exam_year (String.mk (pyStrip form.exam_year.data))).2 now)
             ⟨fs, stored, 0, 0, []⟩).fs,
           ((form.files.filter (fun f => f.filename ≠ "")).foldl
             (processFile year semester (String.mk (pyStrip form.subject.data))
               (String.mk (pyStrip form.exam_type.data)) exam_year
               (parse_exam_year (String.mk (pyStrip form.exam_year.data))).2 now)
             ⟨fs, stored, 0, 0, []⟩).data,
           ((form.files.filter (fun f => f.filename ≠ "")).foldl
             (processFile year semester (String.mk (pyStrip form.subject.data))
               (String.mk (pyStrip form.exam_type.data)) exam_year
               (parse_exam_year (String.mk (pyStrip form.exam_year.data))).2 now)
             ⟨fs, stored, 0, 0, []⟩).saved,
           ((form.files.filter (fun f => f.filename ≠ "")).foldl
             (processFile year semester (String.mk (pyStrip form.subject.data))
               (String.mk (pyStrip form.exam_type.data)) exam_year
               (parse_exam_year (String.mk (pyStrip form.exam_year.data))).2 now)
             ⟨fs, stored, 0, 0, []⟩).skipped,
           ((form.files.filter (fun f => f.filename ≠ "")).foldl
             (processFile year semester (String.mk (pyStrip form.subject.data))
               (String.mk (pyStrip form.exam_type.data)) exam_year
               (parse_exam_year (String.mk (pyStrip form.exam_year.data))).2 now)
             ⟨fs, stored, 0, 0, []⟩).warnings,
           [((form.files.filter (fun f => f.filename ≠ "")).foldl
             (processFile year semester (String.mk (pyStrip form.subject.data))
               (String.mk (pyStrip form.exam_type.data)) exam_year
               (parse_exam_year (String.mk (pyStrip form.exam_year.data))).2 now)
             ⟨fs, stored, 0, 0, []⟩).data]⟩) := by
  unfold upload
  rcases hy : pyParseInt (if form.year = "" then "0" else form.year) with _ | year
  · dsimp only
    refine Or.inl ⟨rfl, rfl, rfl, rfl, ?_⟩
    rintro ⟨⟨⟨y, hy2, _⟩, _⟩, _⟩
    rw [hy] at hy2
    cases hy2
  · rcases hs : pyParseInt (if form.semester = "" then "0" else form.semester) with _ | semester
    · dsimp only
      refine Or.inl ⟨rfl, rfl, rfl, rfl, ?_⟩
      rintro ⟨⟨_, ⟨m, hs2, _⟩, _⟩, _⟩
      rw [hs] at hs2
      cases hs2
    · dsimp only
      rcases hp : (parse_exam_year (String.mk (pyStrip form.exam_year.data))).1 with _ | ey
      · dsimp only
        refine Or.inl ⟨rfl, rfl, rfl, rfl, ?_⟩
        rintro ⟨⟨_, _, _, _, ⟨e, hp2, _⟩⟩, _⟩
        rw [hp] at hp2
        cases hp2
      · dsimp only
        by_cases hey : ey < 2000
        · rw [if_pos hey]
          refine Or.inl ⟨rfl, rfl, rfl, rfl, ?_⟩
          rintro ⟨⟨_, _, _, _, ⟨e, hp2, he2⟩⟩, _⟩
          rw [hp] at hp2
          cases hp2
          omega
        · rw [if_neg hey]
          by_cases hfiles : form.files.filter (fun f => f.filename ≠ "") = []
          · rw [if_pos hfiles]
            refine Or.inl ⟨rfl, rfl, rfl, rfl, ?_⟩
            rintro ⟨_, hne⟩
            exact hne hfiles
          · rw [if_neg hfiles]
            by_cases hmeta : String.mk (pyStrip form.subject.data) = "" ∨
                ¬(String.mk (pyStrip form.exam_type.data) = "Mid" ∨
                  String.mk (pyStrip form.exam_type.data) = "End") ∨
                ¬(year = 1 ∨ year = 2 ∨ year = 3 ∨ year = 4) ∨
                ¬(1 ≤ semester ∧ semester ≤ 8)
            · rw [if_pos hmeta]
              refine Or.inl ⟨rfl, rfl, rfl, rfl, ?_⟩
              rintro ⟨⟨⟨y, hy2, hyr⟩, ⟨m, hs2, hmr⟩, hty, hsubj, _⟩, _⟩
              rw [hy] at hy2
              rw [hs] at hs2
              cases hy2
              cases hs2
              rcases hmeta with h | h | h | h
              · exact hsubj h
              · exact h hty
              · exact h hyr
              · exact h hmr
            · rw [if_neg hmeta]
              push_neg at hmeta
              exact Or.inr ⟨rfl, ⟨⟨⟨year, hy, hmeta.2.2.1⟩,
                ⟨semester, hs, hmeta.2.2.2.1, hmeta.2.2.2.2⟩,
                hmeta.2.1, hmeta.1, ey, hp, by omega⟩, hfiles⟩, year, semester, ey, rfl⟩

/-- A valid upload form carrying two files with the same name, used as the
concrete in-batch collision scenario. -/
def uploadFormA : UploadForm :=
  ⟨"Physics", "Mid", "1", "1", "2023", [⟨"a.pdf", false⟩, ⟨"a.pdf", false⟩]⟩

/-- C7: metadata validation failure rejects the whole batch, leaving the
file system, the collection and the persisted state untouched; acceptance
is exactly metadata validity plus a non-empty file list; on acceptance
each file is either saved or skipped (per-file errors never abort
siblings) and the store is persisted exactly once, after all files. -/
theorem C7_upload_batch :
    ∀ (form : UploadForm) (now : String) (fs : List String) (stored : List Paper),
      ((upload form now fs stored).error.isSome = true →
        (upload form now fs stored).fs = fs ∧ (upload form now fs stored).data = stored ∧
        (upload form now fs stored).saves = []) ∧
      ((upload form now fs stored).error = none ↔
        (specMetaValid form ∧ form.files.filter (fun f => f.filename ≠ "") ≠ [])) ∧
      ((upload form now fs stored).error = none →
        (upload form now fs stored).saves = [(upload form now fs stored).data] ∧
        (upload form now fs stored).saved + (upload form now fs stored).skipped =
          (form.files.filter (fun f => f.filename ≠ "")).length ∧
        (upload form now fs stored).data.length =
          stored.length + (upload form now fs stored).saved) := by
  intro form now fs stored
  rcases upload_cases form now fs stored with ⟨he, hfs, hdata, hsaves, hnv⟩ |
    ⟨he, hv, year, semester, ey, heq⟩
  · refine ⟨fun _ => ⟨hfs, hdata, hsaves⟩, ⟨?_, fun hvv => absurd hvv hnv⟩, ?_⟩
    · intro h0
      rw [h0] at he
      cases he
    · intro h0
      rw [h0] at he
      cases he
  · refine ⟨?_, ⟨fun _ => hv, fun _ => he⟩, ?_⟩
    · intro hsome
      rw [he] at hsome
      cases hsome
    · intro _
      rw [heq]
      have hc := uploadFold_counts year semester (String.mk (pyStrip form.subject.data))
        (String.mk (pyStrip form.exam_type.data)) ey
        (parse_exam_year (String.mk (pyStrip form.exam_year.data))).2 now
        (form.files.filter (fun f => f.filename ≠ "")) ⟨fs, stored, 0, 0, []⟩
      refine ⟨rfl, ?_, ?_⟩
      · have h1 := hc.1
        simpa using h1
      · have h2 := hc.2
        simpa using h2

/-- Witness for C7: a malformed year rejects the batch leaving the
collection unchanged, and a valid batch persists exactly once. -/
theorem C7_witness :
    (upload ⟨"Physics", "Mid", "abc", "1", "2023", [⟨"a.pdf", false⟩]⟩ "T" [] [samplePaper3]).data
        = [samplePaper3] ∧
    (upload uploadFormA "T" [] []).saves = [(upload uploadFormA "T" [] []).data] := by
  constructor
  · exact ((C7_upload_batch ⟨"Physics", "Mid", "abc", "1", "2023", [⟨"a.pdf", false⟩]⟩
      "T" [] [samplePaper3]).1 (by decide)).2.1
  · exact ((C7_upload_batch uploadFormA "T" [] []).2.2 (by decide)).1

/-- C2: on a destination collision the stale file is deleted and the new
file replaces it at the same path (no rename-with-suffix), one record is
appended per accepted file; a failed stale delete skips the file and
appends nothing; so a batch grows the store by exactly the number of
non-skipped files — concretely, a batch of two same-named accepted files
leaves one file on disk but two records. -/
theorem C2_duplicate_replacement :
    ∀ (year semester : Int) (subject exam_type : String) (exam_year : Nat)
      (academic_year : Option String) (now : String) (st : UploadState) (f : FileUpload),
      (allowed_file f.filename = true →
        target_dir year semester subject exam_type ++ "/" ++ secure_filename f.filename ∈ st.fs →
        f.deleteFails = false →
        processFile year semester subject exam_type exam_year academic_year now st f =
          ⟨(target_dir year semester subject exam_type ++ "/" ++ secure_filename f.filename) ::
              st.fs.erase
                (target_dir year semester subject exam_type ++ "/" ++ secure_filename f.filename),
            st.data ++ [mkRecord (next_id st.data) year semester subject exam_type exam_year
              academic_year f.filename
              (target_dir year semester subject exam_type ++ "/" ++ secure_filename f.filename)
              now],
            st.saved + 1, st.skipped, st.warnings⟩) ∧
      (allowed_file f.filename = true →
        target_dir year semester subject exam_type ++ "/" ++ secure_filename f.filename ∈ st.fs →
        f.deleteFails = true →
        processFile year semester subject exam_type exam_year academic_year now st f =
          ⟨st.fs, st.data, st.saved, st.skipped + 1,
            st.warnings ++ ["Couldn't remove old duplicate for " ++ secure_filename f.filename]⟩) ∧
      (∀ (form : UploadForm) (fs : List String) (stored : List Paper),
        (upload form now fs stored).error = none →
        (upload form now fs stored).data.length =
          stored.length + (upload form now fs stored).saved) ∧
      (upload uploadFormA "T" [] []).data.length = 2 ∧
      (upload uploadFormA "T" [] []).fs = ["1/1/Physics/Mid/a.pdf"] ∧
      (upload uploadFormA "T" [] []).saved = 2 := by
  intro year semester subject exam_type exam_year academic_year now st f
  refine ⟨?_, ?_, ?_, by decide, by decide, by decide⟩
  · intro h1 h2 h3
    unfold processFile
    dsimp only
    rw [if_neg (not_not_intro h1), if_pos h2, if_neg ?_]
    intro hc
    rw [h3] at hc
    cases hc
  · intro h1 h2 h3
    unfold processFile
    dsimp only
    rw [if_neg (not_not_intro h1), if_pos h2, if_pos h3]
  · intro form fs stored herr
    rcases upload_cases form now fs stored with ⟨he, _, _, _, _⟩ |
      ⟨_, _, y2, m2, ey2, heq⟩
    · rw [herr] at he
      cases he
    · rw [heq]
      have hc := uploadFold_counts y2 m2 (String.mk (pyStrip form.subject.data))
        (String.mk (pyStrip form.exam_type.data)) ey2
        (parse_exam_year (String.mk (pyStrip form.exam_year.data))).2 now
        (form.files.filter (fun f => f.filename ≠ "")) ⟨fs, stored, 0, 0, []⟩
      have h2 := hc.2
      simpa using h2

/-- Witness for C2: replacing an existing `a.pdf` deletes the stale copy,
stores the new file at the same path and appends one record. -/
theorem C2_witness :
    processFile 1 1 "Physics" "Mid" 2023 none "T"
      ⟨["1/1/Physics/Mid/a.pdf"], [], 0, 0, []⟩ ⟨"a.pdf", false⟩ =
      ⟨["1/1/Physics/Mid/a.pdf"],
        [mkRecord 1 1 1 "Physics" "Mid" 2023 none "a.pdf" "1/1/Physics/Mid/a.pdf" "T"],
        1, 0, []⟩ := by
  have h := (C2_duplicate_replacement 1 1 "Physics" "Mid" 2023 none "T"
    ⟨["1/1/Physics/Mid/a.pdf"], [], 0, 0, []⟩ ⟨"a.pdf", false⟩).1 (by decide) (by decide) rfl
  rw [h]
  decide

/-- C8: deleting an unknown id reports not-found, changes nothing and
persists nothing; deleting an existing id removes every record with that
id and persists the result, whether or not unlinking the backing file
failed. -/
theorem C8_delete :
    ∀ (pid : Nat) (uf : Bool) (fs : List String) (data : List Paper),
      ((∀ p ∈ data, p.id ≠ pid) →
        delete_paper pid uf fs data = ⟨false, fs, data, [], []⟩) ∧
      ((∃ p ∈ data, p.id = pid) →
        (delete_paper pid uf fs data).found = true ∧
        (delete_paper pid uf fs data).data = data.filter (fun p => !(p.id == pid)) ∧
        (delete_paper pid uf fs data).saves = [data.filter (fun p => !(p.id == pid))]) := by
  intro pid uf fs data
  constructor
  · intro h
    have hf : data.find? (fun p => p.id == pid) = none := by
      rw [List.find?_eq_none]
      intro p hp
      simp only [beq_iff_eq]
      exact h p hp
    unfold delete_paper
    rw [hf]
  · rintro ⟨p, hp, hpid⟩
    rcases hopt : data.find? (fun q => q.id == pid) with _ | r
    · rw [List.find?_eq_none] at hopt
      exact absurd (by simp [hpid]) (hopt p hp)
    · unfold delete_paper
      rw [hopt]
      exact ⟨rfl, rfl, rfl⟩

/-- Witness for C8: deleting id 9 from a one-record collection is a
no-action not-found; deleting id 3 removes the record and persists even
though the file unlink fails. -/
theorem C8_witness :
    delete_paper 9 false [] [samplePaper3] = ⟨false, [], [samplePaper3], [], []⟩ ∧
    (delete_paper 3 true ["1/1/maths/Mid/a.pdf"] [samplePaper3]).found = true ∧
    (delete_paper 3 true ["1/1/maths/Mid/a.pdf"] [samplePaper3]).saves =
      [[samplePaper3].filter (fun p => !(p.id == 3))] := by
  refine ⟨(C8_delete 9 false [] [samplePaper3]).1 (by decide), ?_, ?_⟩
  · exact ((C8_delete 3 true ["1/1/maths/Mid/a.pdf"] [samplePaper3]).2
      ⟨samplePaper3, List.mem_cons_self _ _, rfl⟩).1
  · exact ((C8_delete 3 true ["1/1/maths/Mid/a.pdf"] [samplePaper3]).2
      ⟨samplePaper3, List.mem_cons_self _ _, rfl⟩).2.2

/-- C9: starting from a collection whose ids are pairwise distinct and
positive, both a whole upload batch (each appended record gets a fresh id
above everything present at its assignment) and a deletion preserve
distinctness and positivity. -/
theorem C9_id_uniqueness :
    ∀ (form : UploadForm) (now : String) (fs : List String) (stored : List Paper),
      (stored.map Paper.id).Nodup → (∀ p ∈ stored, 0 < p.id) →
      (((upload form now fs stored).data.map Paper.id).Nodup ∧
        ∀ p ∈ (upload form now fs stored).data, 0 < p.id) ∧
      ∀ (pid : Nat) (uf : Bool) (fs2 : List String),
        ((delete_paper pid uf fs2 stored).data.map Paper.id).Nodup ∧
        ∀ p ∈ (delete_paper pid uf fs2 stored).data, 0 < p.id := by
  intro form now fs stored h1 h2
  constructor
  · rcases upload_cases form now fs stored with ⟨_, _, hdata, _, _⟩ |
      ⟨_, _, year, semester, ey, heq⟩
    · rw [hdata]
      exact ⟨h1, h2⟩
    · rw [heq]
      exact uploadFold_ids year semester (String.mk (pyStrip form.subject.data))
        (String.mk (pyStrip form.exam_type.data)) ey
        (parse_exam_year (String.mk (pyStrip form.exam_year.data))).2 now
        (form.files.filter (fun f => f.filename ≠ "")) ⟨fs, stored, 0, 0, []⟩ h1 h2
  · intro pid uf fs2
    unfold delete_paper
    rcases hopt : stored.find? (fun p => p.id == pid) with _ | r
    · rw [hopt]
      exact ⟨h1, h2⟩
    · rw [hopt]
      dsimp only
      constructor
      · exact ((List.filter_sublist stored).map Paper.id).nodup h1
      · intro p hp
        exact h2 p (List.mem_of_mem_filter hp)

/-- Witness for C9: a concrete valid two-file batch on a collection with
ids {3} keeps the ids pairwise distinct. -/
theorem C9_witness :
    ((upload uploadFormA "T" [] [samplePaper3]).data.map Paper.id).Nodup :=
  ((C9_id_uniqueness uploadFormA "T" [] [samplePaper3] (by decide)
    (by decide)).1).1
